import Mathlib

/-!
# Verification of the libp2p QUIC transport core

Shallow embedding of `src/transports/quic/src/certificate.rs`,
`src/transports/quic/src/connection/stream.rs` and
`src/transports/quic/src/connection/stream_map.rs` from `paritytech/rust-libp2p`,
together with theorems settling the specification claims about them.

Byte strings are `List Nat` (each element a byte value); machine-level overflow
never occurs in the modelled code paths, lengths are plain `Nat`.
-/

namespace Libp2pQuic

/-- Outcome of running a Rust function that may `panic!` / fail an `expect` /
fail an `assert_eq!`: either a normal return value, or a propagating panic
carrying the panic message. -/
inductive POut (α : Type) where
  | panicked : String → POut α
  | ok : α → POut α
  deriving DecidableEq, Repr

/-! ## Protobuf model of the long-term identity public key

`libp2p_core::identity::PublicKey` and `PeerId` are external collaborators
(not under `src/`), so they are modelled from the spec. -/

/-- Modelled from the spec: the long-term identity key is "polymorphic over
algorithm (e.g. Ed25519, ECDSA, RSA, secp256k1)"; tags follow the libp2p
`PublicKey` protobuf `KeyType` enum. -/
inductive KeyAlg where
  | RSA
  | Ed25519
  | Secp256k1
  | ECDSA
  deriving DecidableEq, Repr

/-- Modelled from the spec: a long-term public key is an algorithm together
with raw key material bytes, with a protobuf encode/decode capability. -/
structure PublicKey where
  alg : KeyAlg
  data : List Nat
  deriving DecidableEq, Repr

def KeyAlg.tag : KeyAlg → Nat
  | .RSA => 0
  | .Ed25519 => 1
  | .Secp256k1 => 2
  | .ECDSA => 3

def KeyAlg.ofTag (n : Nat) : Option KeyAlg :=
  if n = 0 then some .RSA
  else if n = 1 then some .Ed25519
  else if n = 2 then some .Secp256k1
  else if n = 3 then some .ECDSA
  else none

/-- Protobuf base-128 varint encoding, structurally recursive on a fuel
argument (any fuel above the value itself is enough). -/
def varintEncodeAux : Nat → Nat → List Nat
  | 0, _ => []
  | fuel + 1, n =>
    if n < 128 then [n] else (n % 128 + 128) :: varintEncodeAux fuel (n / 128)

/-- Protobuf base-128 varint encoding of a natural number. -/
def varintEncode (n : Nat) : List Nat :=
  varintEncodeAux (n + 1) n

/-- Protobuf base-128 varint decoding; returns the value and the remaining bytes. -/
def varintDecode : List Nat → Option (Nat × List Nat)
  | [] => none
  | b :: rest =>
    if b < 128 then some (b, rest)
    else
      match varintDecode rest with
      | none => none
      | some (n, r) => some (b - 128 + 128 * n, r)

/-- Modelled from the spec: protobuf encoding of a `PublicKey`
(field 1 = varint key type, field 2 = length-delimited key bytes). -/
def PublicKey.into_protobuf_encoding (k : PublicKey) : List Nat :=
  8 :: k.alg.tag :: 18 :: (varintEncode k.data.length ++ k.data)

/-- Modelled from the spec: protobuf decoding of a `PublicKey`; decoding
"reject[s] unsupported algorithms" and any other malformed input by
returning `none`. -/
def PublicKey.from_protobuf_encoding : List Nat → Option PublicKey
  | 8 :: t :: 18 :: rest =>
    match KeyAlg.ofTag t with
    | none => none
    | some alg =>
      match varintDecode rest with
      | none => none
      | some (n, r) => if r.length = n then some ⟨alg, r⟩ else none
  | _ => none

/-- Modelled from the spec: a `PeerId` is "derived from a long-term public key
(hash/derivation)" — a deterministic function of the public key; the hash step
is abstracted by carrying the key itself. -/
structure PeerId where
  ofKey : PublicKey
  deriving DecidableEq, Repr

def PeerId.fromPublicKey (k : PublicKey) : PeerId := ⟨k⟩

/-- Modelled from the spec: the application-supplied long-term keypair, with
capability set "sign(bytes)→signature, public key, protobuf encode/decode". -/
structure Keypair where
  publicKey : PublicKey
  sign : List Nat → List Nat

/-! ## Wire constants from `certificate.rs` -/

/-- `LIBP2P_OID`: the arcs of the private OID `1.3.6.1.4.1.53594.1.1`. -/
def LIBP2P_OID : List Nat := [1, 3, 6, 1, 4, 1, 53594, 1, 1]

/-- `LIBP2P_OID_BYTES`: the DER content-octet encoding of `LIBP2P_OID`,
matched against the extension walk by `unwrap_libp2p_certificate`. -/
def LIBP2P_OID_BYTES : List Nat := [43, 6, 1, 4, 1, 131, 162, 90, 1, 1]

/-- `LIBP2P_SIGNING_PREFIX`: the 21 ASCII bytes of `"libp2p-tls-handshake:"`.
(Renamed with a `_BYTES` suffix for this development.) -/
def LIBP2P_SIGNING_PREFIX_BYTES : List Nat :=
  [108, 105, 98, 112, 50, 112, 45, 116, 108, 115, 45,
   104, 97, 110, 100, 115, 104, 97, 107, 101, 58]

/-- DER base-128 encoding of one OID arc with continuation bit set on every
byte, structurally recursive on a fuel argument. -/
def oidArcBytesContAux : Nat → Nat → List Nat
  | 0, _ => []
  | fuel + 1, n =>
    if n < 128 then [n + 128]
    else oidArcBytesContAux fuel (n / 128) ++ [n % 128 + 128]

/-- DER base-128 encoding of one OID arc (continuation bit on all bytes but the last). -/
def oidArcBytes (n : Nat) : List Nat :=
  if n < 128 then [n]
  else oidArcBytesContAux (n + 1) (n / 128) ++ [n % 128]

/-- DER content octets of an object identifier given its arcs. -/
def oidDer : List Nat → List Nat
  | [] => []
  | [_] => []
  | a :: b :: rest => (a * 40 + b) :: (rest.map oidArcBytes).flatten

/-! ## DER writing (yasna, as used by `encode_signed_key`) -/

/-- Minimal DER length octets for a content length `n` (yasna's encoding). -/
def derLen (n : Nat) : List Nat :=
  if n < 128 then [n]
  else if n < 256 then [129, n]
  else if n < 65536 then [130, n / 256, n % 256]
  else [131, n / 65536, n / 256 % 256, n % 256]

/-- yasna `write_bitvec_bytes(bytes, 8 * bytes.len())`: a BIT STRING (tag `0x03`)
whose first content octet is `0` (zero unused bits) followed by the bytes. -/
def writeBitvecBytes (bytes : List Nat) : List Nat :=
  3 :: derLen (bytes.length + 1) ++ (0 :: bytes)

/-- yasna `write_sequence`: a SEQUENCE (tag `0x30`) wrapping the given content. -/
def writeSequence (content : List Nat) : List Nat :=
  48 :: derLen content.length ++ content

/-- The DER produced by the `yasna::construct_der` closure in
`encode_signed_key`: a SEQUENCE of two BIT STRINGs, the protobuf-encoded
long-term public key and then the signature. -/
def signedKeyContents (pkProto signature : List Nat) : List Nat :=
  writeSequence (writeBitvecBytes pkProto ++ writeBitvecBytes signature)

/-! ## DER reading (`ring::io::der`, as used by `extract_libp2p_peerid`) -/

/-- `ring`'s DER length parsing: short form, or minimal `0x81`/`0x82` long
forms only; anything longer is rejected. -/
def readDerLen : List Nat → Option (Nat × List Nat)
  | [] => none
  | n :: rest =>
    if n < 128 then some (n, rest)
    else if n = 129 then
      match rest with
      | [] => none
      | m :: r => if 128 ≤ m then some (m, r) else none
    else if n = 130 then
      match rest with
      | a :: b :: r =>
        let combined := a * 256 + b
        if 256 ≤ combined then some (combined, r) else none
      | _ => none
    else none

/-- `ring` `der::expect_tag_and_get_value`: reads one TLV with exactly the
expected tag, returning its content and the remaining input. -/
def expectTagAndGetValue (tag : Nat) : List Nat → Option (List Nat × List Nat)
  | [] => none
  | t :: rest =>
    if t = tag then
      match readDerLen rest with
      | none => none
      | some (len, r) =>
        if len ≤ r.length then some (r.take len, r.drop len) else none
    else none

/-- `ring` `der::bit_string_with_no_unused_bits`: a BIT STRING whose first
content octet (unused-bit count) must be `0`. -/
def bitStringNoUnusedBits (input : List Nat) : Option (List Nat × List Nat) :=
  match expectTagAndGetValue 3 input with
  | none => none
  | some (v, rest) =>
    match v with
    | [] => none
    | unused :: content => if unused = 0 then some (content, rest) else none

/-! ## Certificate extension extraction (`certificate.rs`) -/

/-- Panic message of the `read_all` `expect` in `extract_libp2p_peerid`. -/
def panicMsgExtract : String := "we already checked this in the certificate verifier"

/-- Panic message of the protobuf-decode `expect` in `extract_libp2p_peerid`. -/
def panicMsgAlreadyChecked : String := "already checked"

/-- Panic message of the first `expect` in `unwrap_libp2p_certificate`. -/
def panicMsgValidated : String := "we already validated the certificate is well-formed"

/-- Panic message of the second `expect` in `unwrap_libp2p_certificate`. -/
def panicMsgExtensionExists : String := "we already checked that a libp2p extension exists"

/-- `extract_libp2p_peerid`: reads the extension value as a DER SEQUENCE of two
zero-unused-bit BIT STRINGs, protobuf-decodes the first into a public key and
returns the `PeerId` derived from it.  The second BIT STRING (the signature) is
parsed for shape but its value is discarded.  Every failure path is an `expect`
panic, mirroring the source: DER failures surface through the outer
`read_all(...).expect(...)`, a protobuf failure through `.expect("already
checked")` (which fires before the two `read_all` at-end checks). -/
def extract_libp2p_peerid (ext : List Nat) : POut PeerId :=
  match expectTagAndGetValue 48 ext with
  | none => .panicked panicMsgExtract
  | some (inner, rest) =>
    match bitStringNoUnusedBits inner with
    | none => .panicked panicMsgExtract
    | some (pk, r1) =>
      match bitStringNoUnusedBits r1 with
      | none => .panicked panicMsgExtract
      | some (_sig, r2) =>
        match PublicKey.from_protobuf_encoding pk with
        | none => .panicked panicMsgAlreadyChecked
        | some k =>
          if r2 = [] then
            if rest = [] then .ok (PeerId.fromPublicKey k)
            else .panicked panicMsgExtract
          else .panicked panicMsgExtract

/-- The extension-callback walk of `unwrap_libp2p_certificate`: webpki invokes
the callback once per extension `(oid content octets, value)`; on the libp2p
OID the callback stores `Some (extract_libp2p_peerid value)` (a panic inside
`extract_libp2p_peerid` aborts the walk), later matches overwrite earlier ones. -/
def findLibp2pId : List (List Nat × List Nat) → Option (POut PeerId)
  | [] => none
  | (oid, v) :: rest =>
    if oid = LIBP2P_OID_BYTES then
      match extract_libp2p_peerid v with
      | .panicked m => some (.panicked m)
      | .ok p =>
        match findLibp2pId rest with
        | some r => some r
        | none => some (.ok p)
    else findLibp2pId rest

/-- `unwrap_libp2p_certificate`.  The external `webpki::EndEntityCert::
from_with_extension_cb` structural X.509 parse is modelled at its boundary:
`none` is a failed parse (malformed DER, no certificate structure), `some exts`
is a successful parse reporting the certificate's extension walk as pairs of
(DER OID content octets, extension value).  Both `expect`s of the source are
panic paths: a failed parse panics, and a successful parse with no libp2p
extension panics. -/
def unwrap_libp2p_certificate (parsed : Option (List (List Nat × List Nat))) :
    POut PeerId :=
  match parsed with
  | none => .panicked panicMsgValidated
  | some exts =>
    match findLibp2pId exts with
    | none => .panicked panicMsgExtensionExists
    | some r => r

/-! ## Certificate issuance (`certificate.rs`) -/

/-- `rcgen::CustomExtension` as configured by `encode_signed_key`: an OID
(as arcs), a criticality flag, and DER content. -/
structure CustomExtension where
  oid : List Nat
  critical : Bool
  content : List Nat
  deriving DecidableEq, Repr

/-- `encode_signed_key`: builds the critical libp2p extension whose content is
the DER SEQUENCE of two BIT STRINGs (protobuf-encoded long-term public key,
then signature). -/
def encode_signed_key (public_key : PublicKey) (signature : List Nat) :
    CustomExtension :=
  { oid := LIBP2P_OID
    critical := true
    content := signedKeyContents public_key.into_protobuf_encoding signature }

/-- Panic message of the `assert_eq!` in `gen_signed_keypair`. -/
def panicMsgKeyLen : String := "ECDSA public keys are 65 bytes"

/-- `gen_signed_keypair`.  The freshly generated ephemeral ECDSA P-256 keypair
is external (`rcgen::KeyPair::generate`); it enters the model through its raw
public key bytes `ephemeralPublicKey` (the only part the source reads).  The
source asserts those bytes number 65, builds the 86-byte signing buffer
`LIBP2P_SIGNING_PREFIX ++ public`, signs it with the long-term keypair, and
returns the ephemeral keypair together with the libp2p extension. -/
def gen_signed_keypair (keypair : Keypair) (ephemeralPublicKey : List Nat) :
    POut (List Nat × CustomExtension) :=
  if ephemeralPublicKey.length = 65 then
    let signing_buf := LIBP2P_SIGNING_PREFIX_BYTES ++ ephemeralPublicKey
    .ok (ephemeralPublicKey,
         encode_signed_key keypair.publicKey (keypair.sign signing_buf))
  else .panicked panicMsgKeyLen

/-- Boundary model of `rcgen::Certificate`: `rcgen` serialises the parameters
into well-formed X.509 DER; the part this crate's claims observe is the
extension walk webpki later reports, so the certificate is represented by that
walk — pairs of (DER OID content octets, extension value). -/
structure Certificate where
  extensions : List (List Nat × List Nat)
  deriving DecidableEq, Repr

/-- `make_cert`: issues the self-signed certificate carrying exactly the
libp2p custom extension built by `gen_signed_keypair`. -/
def make_cert (keypair : Keypair) (ephemeralPublicKey : List Nat) :
    POut Certificate :=
  match gen_signed_keypair keypair ephemeralPublicKey with
  | .panicked m => .panicked m
  | .ok (_, ext) => .ok ⟨[(oidDer ext.oid, ext.content)]⟩

/-! ## Per-stream wake state (`connection/stream.rs`)

`task::Waker` and `oneshot::Sender<()>` are external resumption handles; the
model identifies each by a numeric token and records the observable effect of
`waker.wake()` / `finisher.send(())` as an emitted `WakeEvent`.  Each mutating
operation returns the new state together with the list of events it emitted. -/

/-- A `task::Waker`, identified by a token. -/
abbrev Waker := Nat

/-- A `oneshot::Sender<()>` finisher channel, identified by a token. -/
abbrev Finisher := Nat

/-- Observable resolution of a waiter: `waker.wake()` or `finisher.send(())`. -/
inductive WakeEvent where
  | wake : Waker → WakeEvent
  | notify : Finisher → WakeEvent
  deriving DecidableEq, Repr

/-- `WriterStatus`: the state of the writing portion of a stream. -/
inductive WriterStatus where
  | Unblocked
  | Blocked (waker : Waker)
  | Finishing (finisher : Finisher)
  deriving DecidableEq, Repr

/-- `WriterStatus::take`: resolve the held waiter, if any (wake the blocked
writer's waker, or send on the finisher channel). -/
def WriterStatus.take : WriterStatus → List WakeEvent
  | .Unblocked => []
  | .Blocked w => [.wake w]
  | .Finishing f => [.notify f]

/-- `StreamState`: one stream's wake bookkeeping. -/
structure StreamState where
  reader : Option Waker
  writer : WriterStatus
  deriving DecidableEq, Repr

/-- `Default for StreamState`: no reader waker, writer `Unblocked`. -/
def StreamState.defaultState : StreamState :=
  { reader := none, writer := .Unblocked }

/-- `StreamState::wake_reader`: wake and clear the reader waker if present,
otherwise a no-op. -/
def StreamState.wake_reader (s : StreamState) : StreamState × List WakeEvent :=
  match s.reader with
  | some w => ({ s with reader := none }, [.wake w])
  | none => (s, [])

/-- `StreamState::wake_writer`: `mem::replace(&mut self.writer, Unblocked).take()`. -/
def StreamState.wake_writer (s : StreamState) : StreamState × List WakeEvent :=
  ({ s with writer := .Unblocked }, s.writer.take)

/-- `StreamState::set_reader`: store the new reader waker, waking any waker
that was already registered. -/
def StreamState.set_reader (s : StreamState) (waker : Waker) :
    StreamState × List WakeEvent :=
  ({ s with reader := some waker },
   match s.reader with
   | some old => [.wake old]
   | none => [])

/-- `StreamState::set_writer`: `mem::replace(&mut self.writer, Blocked(waker)).take()`. -/
def StreamState.set_writer (s : StreamState) (waker : Waker) :
    StreamState × List WakeEvent :=
  ({ s with writer := .Blocked waker }, s.writer.take)

/-- `StreamState::set_finisher`: `mem::replace(&mut self.writer, Finishing(f)).take()`. -/
def StreamState.set_finisher (s : StreamState) (finisher : Finisher) :
    StreamState × List WakeEvent :=
  ({ s with writer := .Finishing finisher }, s.writer.take)

/-- `StreamState::wake_all`: `wake_writer` then `wake_reader`. -/
def StreamState.wake_all (s : StreamState) : StreamState × List WakeEvent :=
  let (s1, e1) := s.wake_writer
  let (s2, e2) := s1.wake_reader
  (s2, e1 ++ e2)

/-- `Drop for StreamState` calls `wake_all`; these are the events the
destructor emits. -/
def StreamState.dropEvents (s : StreamState) : List WakeEvent :=
  s.wake_all.2

/-! ## Stream table (`connection/stream_map.rs`)

`quinn_proto::StreamId` is an external opaque identifier "used only for
equality/ordering/lookup", modelled as `Nat`.  The `HashMap` is modelled as an
association list with unique keys (uniqueness is enforced by `add_stream`
itself); iteration order is irrelevant to every claim. -/

/-- The newtype `StreamId` wrapping a `quinn_proto::StreamId`. -/
structure StreamId where
  id : Nat
  deriving DecidableEq, Repr

/-- `HashMap::get_mut` on the model: first binding with the given key. -/
def assocLookup : List (Nat × StreamState) → Nat → Option StreamState
  | [], _ => none
  | (k, v) :: rest, i => if k = i then some v else assocLookup rest i

/-- In-place update of the binding for a present key. -/
def assocReplace : List (Nat × StreamState) → Nat → StreamState →
    List (Nat × StreamState)
  | [], _, _ => []
  | (k, v) :: rest, i, s =>
    if k = i then (k, s) :: rest else (k, v) :: assocReplace rest i s

/-- `HashMap::remove` on the model: drop the binding with the given key. -/
def assocErase : List (Nat × StreamState) → Nat → List (Nat × StreamState)
  | [], _ => []
  | (k, v) :: rest, i => if k = i then rest else (k, v) :: assocErase rest i

/-- `Streams`: the set of streams of one QUIC connection. -/
structure Streams where
  map : List (Nat × StreamState)
  deriving DecidableEq, Repr

/-- The panic message shared by `add_stream`, `get` and `remove`. -/
def panicMsgCorrupted : String :=
  "Internal state corrupted. You probably used a Substream with the wrong StreamMuxer"

/-- `Streams::add_stream`: insert a fresh default `StreamState`; a duplicate id
panics. -/
def Streams.add_stream (t : Streams) (id : Nat) : POut (Streams × StreamId) :=
  match assocLookup t.map id with
  | some _ => .panicked panicMsgCorrupted
  | none => .ok (⟨(id, StreamState.defaultState) :: t.map⟩, ⟨id⟩)

/-- `Streams::wake_reader`: `if let Some(stream) = map.get_mut(&id)` — a no-op
when the id is absent. -/
def Streams.wake_reader (t : Streams) (id : Nat) : Streams × List WakeEvent :=
  match assocLookup t.map id with
  | none => (t, [])
  | some s =>
    let (s1, ev) := s.wake_reader
    (⟨assocReplace t.map id s1⟩, ev)

/-- `Streams::wake_writer`: a no-op when the id is absent. -/
def Streams.wake_writer (t : Streams) (id : Nat) : Streams × List WakeEvent :=
  match assocLookup t.map id with
  | none => (t, [])
  | some s =>
    let (s1, ev) := s.wake_writer
    (⟨assocReplace t.map id s1⟩, ev)

/-- `Streams::set_reader`: goes through `get`, which panics on an absent id. -/
def Streams.set_reader (t : Streams) (id : Nat) (waker : Waker) :
    POut (Streams × List WakeEvent) :=
  match assocLookup t.map id with
  | none => .panicked panicMsgCorrupted
  | some s =>
    let (s1, ev) := s.set_reader waker
    .ok (⟨assocReplace t.map id s1⟩, ev)

/-- `Streams::set_writer`: goes through `get`, which panics on an absent id. -/
def Streams.set_writer (t : Streams) (id : Nat) (waker : Waker) :
    POut (Streams × List WakeEvent) :=
  match assocLookup t.map id with
  | none => .panicked panicMsgCorrupted
  | some s =>
    let (s1, ev) := s.set_writer waker
    .ok (⟨assocReplace t.map id s1⟩, ev)

/-- `Streams::set_finisher`: goes through `get`, which panics on an absent id. -/
def Streams.set_finisher (t : Streams) (id : Nat) (finisher : Finisher) :
    POut (Streams × List WakeEvent) :=
  match assocLookup t.map id with
  | none => .panicked panicMsgCorrupted
  | some s =>
    let (s1, ev) := s.set_finisher finisher
    .ok (⟨assocReplace t.map id s1⟩, ev)

/-- `Streams::remove`: removing an absent id panics; removing a present id
deletes the binding, and dropping the removed `StreamState` runs its
destructor, emitting that state's `wake_all` events. -/
def Streams.remove (t : Streams) (id : Nat) : POut (Streams × List WakeEvent) :=
  match assocLookup t.map id with
  | none => .panicked panicMsgCorrupted
  | some s => .ok (⟨assocErase t.map id⟩, s.dropEvents)

/-! ## Concrete inputs for witnesses and counterexamples -/

/-- A concrete Ed25519 long-term public key. -/
def pkCx : PublicKey := ⟨.Ed25519, List.replicate 32 0⟩

/-- A concrete long-term keypair whose sign capability returns a fixed
byte string. -/
def KW : Keypair := { publicKey := ⟨.Ed25519, List.replicate 32 7⟩, sign := fun _ => [9, 9, 9, 9] }

/-- A concrete 65-byte raw ephemeral public key. -/
def ephW : List Nat := List.replicate 65 2

/-- The certificate issued for `KW` with ephemeral key `ephW`. -/
def certW : Certificate :=
  ⟨[(LIBP2P_OID_BYTES,
     signedKeyContents KW.publicKey.into_protobuf_encoding [9, 9, 9, 9])]⟩

/-- A concrete stream table holding one stream with a registered reader waker
and a registered finisher channel. -/
def tblW : Streams := ⟨[(4, ⟨some 3, .Finishing 5⟩)]⟩

/-- A concrete stream table holding one stream in the default state. -/
def tblW1 : Streams := ⟨[(0, StreamState.defaultState)]⟩

/-- The empty stream table. -/
def tblW0 : Streams := ⟨[]⟩

end Libp2pQuic

namespace Libp2pQuic

/-! ## Round-trip lemmas: the yasna writer against the ring reader -/

theorem varint_roundtrip_aux (fuel : Nat) :
    ∀ n rest, n < fuel →
      varintDecode (varintEncodeAux fuel n ++ rest) = some (n, rest) := by
  induction fuel with
  | zero => intro n _ h; exact absurd h (Nat.not_lt_zero n)
  | succ f ih =>
    intro n rest h
    rw [varintEncodeAux]
    by_cases h1 : n < 128
    · simp [h1, varintDecode]
    · have hd : n / 128 < f := by
        have h2 : n / 128 < n := Nat.div_lt_self (by omega) (by omega)
        omega
      have hb : ¬ (n % 128 + 128 < 128) := by omega
      simp only [if_neg h1, List.cons_append, varintDecode, hb, if_false,
        List.append_eq, ih (n / 128) rest hd]
      have he : n % 128 + 128 - 128 + 128 * (n / 128) = n := by omega
      rw [he]

theorem varint_roundtrip (n : Nat) (rest : List Nat) :
    varintDecode (varintEncode n ++ rest) = some (n, rest) :=
  varint_roundtrip_aux (n + 1) n rest (Nat.lt_succ_self n)

theorem readDerLen_derLen (n : Nat) (h : n < 65536) (rest : List Nat) :
    readDerLen (derLen n ++ rest) = some (n, rest) := by
  unfold derLen
  by_cases h1 : n < 128
  · simp [h1, readDerLen]
  · by_cases h2 : n < 256
    · have : 128 ≤ n := by omega
      simp [h1, h2, readDerLen, this]
    · have he : n / 256 * 256 + n % 256 = n := by omega
      have hge : 256 ≤ n / 256 * 256 + n % 256 := by omega
      simp [h1, h2, h, readDerLen, he, hge]

theorem expectTag_roundtrip (tag : Nat) (content rest : List Nat)
    (h : content.length < 65536) :
    expectTagAndGetValue tag (tag :: derLen content.length ++ (content ++ rest)) =
      some (content, rest) := by
  rw [List.cons_append]
  have hstep : expectTagAndGetValue tag
      (tag :: (derLen content.length ++ (content ++ rest))) =
      (if tag = tag then
        match readDerLen (derLen content.length ++ (content ++ rest)) with
        | none => none
        | some (len, r) =>
          if len ≤ r.length then some (List.take len r, List.drop len r) else none
      else none) := rfl
  rw [hstep, if_pos rfl, readDerLen_derLen _ h]
  have hle : content.length ≤ (content ++ rest).length := by
    simp [List.length_append]
  simp [hle, List.take_left, List.drop_left]

theorem bitString_roundtrip (bytes rest : List Nat) (h : bytes.length + 1 < 65536) :
    bitStringNoUnusedBits (writeBitvecBytes bytes ++ rest) = some (bytes, rest) := by
  unfold bitStringNoUnusedBits writeBitvecBytes
  have hs : (3 :: derLen (bytes.length + 1) ++ (0 :: bytes)) ++ rest
      = 3 :: derLen ((0 :: bytes).length) ++ ((0 :: bytes) ++ rest) := by
    simp
  rw [hs, expectTag_roundtrip 3 (0 :: bytes) rest (by simpa using h)]
  simp

theorem derLen_length_le (n : Nat) : (derLen n).length ≤ 4 := by
  unfold derLen
  split
  · simp
  · split
    · simp
    · split
      · simp
      · simp

theorem writeBitvecBytes_length (bytes : List Nat) :
    (writeBitvecBytes bytes).length ≤ bytes.length + 6 := by
  have := derLen_length_le (bytes.length + 1)
  simp only [writeBitvecBytes, List.length_cons, List.length_append]
  omega

/-- The spec-modelled protobuf decode inverts the spec-modelled protobuf encode. -/
theorem protobuf_roundtrip (k : PublicKey) :
    PublicKey.from_protobuf_encoding k.into_protobuf_encoding = some k := by
  have htag : KeyAlg.ofTag k.alg.tag = some k.alg := by
    cases k.alg <;> rfl
  have hstep : PublicKey.from_protobuf_encoding k.into_protobuf_encoding =
      (match KeyAlg.ofTag k.alg.tag with
      | none => none
      | some alg =>
        match varintDecode (varintEncode k.data.length ++ k.data) with
        | none => none
        | some (n, r) => if r.length = n then some ⟨alg, r⟩ else none) := rfl
  rw [hstep, htag, varint_roundtrip]
  simp

/-- Parsing the DER produced by the `encode_signed_key` writer recovers the
SEQUENCE of exactly two zero-unused-bit BIT STRINGs it was built from. -/
theorem signedKeyContents_parse (pk sig : List Nat)
    (hpk : pk.length ≤ 30000) (hsig : sig.length ≤ 30000) :
    expectTagAndGetValue 48 (signedKeyContents pk sig) =
      some (writeBitvecBytes pk ++ writeBitvecBytes sig, []) ∧
    bitStringNoUnusedBits (writeBitvecBytes pk ++ writeBitvecBytes sig) =
      some (pk, writeBitvecBytes sig) ∧
    bitStringNoUnusedBits (writeBitvecBytes sig) = some (sig, []) := by
  have hbpk : (writeBitvecBytes pk).length ≤ pk.length + 6 := writeBitvecBytes_length pk
  have hbsig : (writeBitvecBytes sig).length ≤ sig.length + 6 := writeBitvecBytes_length sig
  have hc : (writeBitvecBytes pk ++ writeBitvecBytes sig).length < 65536 := by
    simp only [List.length_append]; omega
  refine ⟨?_, ?_, ?_⟩
  · have := expectTag_roundtrip 48 (writeBitvecBytes pk ++ writeBitvecBytes sig) [] hc
    simpa [signedKeyContents, writeSequence] using this
  · exact bitString_roundtrip pk (writeBitvecBytes sig) (by omega)
  · have := bitString_roundtrip sig [] (by omega)
    simpa using this

/-- Evaluation of `extract_libp2p_peerid` on a well-shaped extension value, as
produced by `encode_signed_key`: the result depends only on the embedded
public-key bit string; the signature bit string is parsed and discarded. -/
theorem extract_signedKeyContents (pk sig : List Nat)
    (hpk : pk.length ≤ 30000) (hsig : sig.length ≤ 30000) :
    extract_libp2p_peerid (signedKeyContents pk sig) =
      (match PublicKey.from_protobuf_encoding pk with
      | none => .panicked panicMsgAlreadyChecked
      | some k => .ok (PeerId.fromPublicKey k)) := by
  obtain ⟨h1, h2, h3⟩ := signedKeyContents_parse pk sig hpk hsig
  rw [extract_libp2p_peerid, h1]
  simp only [h2, h3]
  cases hk : PublicKey.from_protobuf_encoding pk <;> simp [hk]

/-- When no extension in the walk carries the libp2p OID, the callback never
stores an id. -/
theorem findLibp2pId_none (l : List (List Nat × List Nat))
    (h : ∀ p ∈ l, p.1 ≠ LIBP2P_OID_BYTES) : findLibp2pId l = none := by
  induction l with
  | nil => rfl
  | cons p rest ih =>
    obtain ⟨oid, v⟩ := p
    have h0 : oid ≠ LIBP2P_OID_BYTES := h (oid, v) (List.mem_cons_self _ _)
    rw [findLibp2pId, if_neg h0]
    exact ih fun q hq => h q (List.mem_cons_of_mem _ hq)

/-- `make_cert` on a 65-byte ephemeral public key: the issued certificate's
extension walk holds exactly the libp2p extension. -/
theorem make_cert_eval (K : Keypair) (eph : List Nat) (h65 : eph.length = 65) :
    make_cert K eph =
      .ok ⟨[(oidDer LIBP2P_OID,
        signedKeyContents K.publicKey.into_protobuf_encoding
          (K.sign (LIBP2P_SIGNING_PREFIX_BYTES ++ eph)))]⟩ := by
  simp [make_cert, gen_signed_keypair, h65, encode_signed_key]

/-! ## Claim theorems -/

/-- C1 counterexample: two extension values identical except for a flipped bit
in the embedded signature (first signature byte `7` versus `6`) are both
accepted by `extract_libp2p_peerid` and yield the same `PeerId`.  Since the two
signatures differ, at most one of them can verify against any fixed message and
key, so extraction returns a `PeerId` for a certificate whose embedded
signature does not verify — it does not fail, contrary to the claim. -/
theorem extract_ignores_signature_cx :
    extract_libp2p_peerid
        (signedKeyContents pkCx.into_protobuf_encoding [7, 7, 7, 7]) =
      .ok (PeerId.fromPublicKey pkCx) ∧
    extract_libp2p_peerid
        (signedKeyContents pkCx.into_protobuf_encoding [6, 7, 7, 7]) =
      .ok (PeerId.fromPublicKey pkCx) ∧
    ([6, 7, 7, 7] : List Nat) ≠ [7, 7, 7, 7] := by
  decide

/-- C1 (amended): `extract_libp2p_peerid` performs no signature verification —
its result is a function of the embedded public-key bit string alone, so
changing the embedded signature (in particular flipping any of its bits) leaves
the extracted `PeerId` unchanged; rejecting certificates whose embedded
signature does not verify is the responsibility of the crate's certificate
verifier, which runs before extraction. -/
theorem extract_ignores_signature (pk sig sig' : List Nat)
    (hpk : pk.length ≤ 30000) (h1 : sig.length ≤ 30000) (h2 : sig'.length ≤ 30000) :
    extract_libp2p_peerid (signedKeyContents pk sig) =
      extract_libp2p_peerid (signedKeyContents pk sig') := by
  rw [extract_signedKeyContents pk sig hpk h1,
    extract_signedKeyContents pk sig' hpk h2]

/-- C1 witness: the amended theorem at the concrete tampered pair. -/
theorem extract_ignores_signature_wit :
    extract_libp2p_peerid
        (signedKeyContents pkCx.into_protobuf_encoding [7, 7, 7, 7]) =
      extract_libp2p_peerid
        (signedKeyContents pkCx.into_protobuf_encoding [6, 7, 7, 7]) :=
  extract_ignores_signature pkCx.into_protobuf_encoding [7, 7, 7, 7] [6, 7, 7, 7]
    (by decide) (by decide) (by decide)

/-- C2 counterexample: `unwrap_libp2p_certificate` does not return a
recoverable error value — it panics.  At the concrete inputs: a byte string
webpki cannot parse as a certificate (e.g. the empty byte string) panics with
the first `expect` message; a well-formed certificate with no libp2p extension
panics with the second; a malformed extension value panics inside
`extract_libp2p_peerid`. -/
theorem unwrap_panics_cx :
    unwrap_libp2p_certificate none = .panicked panicMsgValidated ∧
    unwrap_libp2p_certificate (some []) = .panicked panicMsgExtensionExists ∧
    extract_libp2p_peerid [] = .panicked panicMsgExtract :=
  ⟨rfl, rfl, rfl⟩

/-- C2 (amended): `unwrap_libp2p_certificate` has no recoverable-error return
channel.  On any input whose structural X.509 parse fails, and on any parsed
certificate none of whose extensions carries the libp2p OID, it panics with the
documented `expect` messages (its doc comment states these panic conditions);
recoverable classification of verification failures happens in the crate's
certificate verifier before this function is reached. -/
theorem unwrap_panics_on_malformed (exts : List (List Nat × List Nat))
    (h : ∀ p ∈ exts, p.1 ≠ LIBP2P_OID_BYTES) :
    unwrap_libp2p_certificate none = .panicked panicMsgValidated ∧
    unwrap_libp2p_certificate (some exts) = .panicked panicMsgExtensionExists := by
  refine ⟨rfl, ?_⟩
  simp only [unwrap_libp2p_certificate, findLibp2pId_none exts h]

/-- C2 witness: the amended theorem at a parse failure and at a concrete
extension walk carrying only a non-libp2p OID. -/
theorem unwrap_panics_on_malformed_wit :
    unwrap_libp2p_certificate none = .panicked panicMsgValidated ∧
    unwrap_libp2p_certificate (some [([1, 2, 3], [4, 5])]) =
      .panicked panicMsgExtensionExists :=
  unwrap_panics_on_malformed [([1, 2, 3], [4, 5])] (by decide)

/-- C3: for every long-term keypair, extracting the peer id from the
certificate issued for it — `unwrap_libp2p_certificate` applied to the
(successfully validated) extension walk of `make_cert` — yields exactly the
`PeerId` derived from the keypair's public key.  The byte-length bounds keep
the DER lengths in the range both the yasna writer and the ring reader
support, which every real key and signature satisfies. -/
theorem make_cert_unwrap_roundtrip (K : Keypair) (eph : List Nat)
    (cert : Certificate) (h65 : eph.length = 65)
    (hpk : K.publicKey.into_protobuf_encoding.length ≤ 30000)
    (hsig : (K.sign (LIBP2P_SIGNING_PREFIX_BYTES ++ eph)).length ≤ 30000)
    (hc : make_cert K eph = .ok cert) :
    unwrap_libp2p_certificate (some cert.extensions) =
      .ok (PeerId.fromPublicKey K.publicKey) := by
  rw [make_cert_eval K eph h65] at hc
  have hcert : cert = ⟨[(oidDer LIBP2P_OID,
      signedKeyContents K.publicKey.into_protobuf_encoding
        (K.sign (LIBP2P_SIGNING_PREFIX_BYTES ++ eph)))]⟩ := by
    injection hc with h
    exact h.symm
  subst hcert
  have hoid : oidDer LIBP2P_OID = LIBP2P_OID_BYTES := by decide
  have hex : extract_libp2p_peerid
      (signedKeyContents K.publicKey.into_protobuf_encoding
        (K.sign (LIBP2P_SIGNING_PREFIX_BYTES ++ eph))) =
      .ok (PeerId.fromPublicKey K.publicKey) := by
    rw [extract_signedKeyContents _ _ hpk hsig, protobuf_roundtrip]
  simp [unwrap_libp2p_certificate, findLibp2pId, hoid, hex]

/-- C3 witness: the round trip at the concrete keypair `KW` and ephemeral key
`ephW`, whose issued certificate is `certW`. -/
theorem make_cert_unwrap_roundtrip_wit :
    unwrap_libp2p_certificate (some certW.extensions) =
      .ok (PeerId.fromPublicKey KW.publicKey) :=
  make_cert_unwrap_roundtrip KW ephW certW (by decide) (by decide) (by decide)
    (by decide)

/-- C4: issuance signs exactly the 86-byte buffer `LIBP2P_SIGNING_PREFIX ++
ephemeral public key` (the prefix being 21 bytes and the ephemeral raw P-256
key 65), and places in the certificate a critical extension under the OID
`1.3.6.1.4.1.53594.1.1` (whose DER content octets are `LIBP2P_OID_BYTES`)
whose value parses as a DER SEQUENCE of exactly two BIT STRINGs with zero
unused bits: the protobuf-encoded long-term public key, then the signature. -/
theorem gen_signed_keypair_shape (K : Keypair) (eph : List Nat)
    (h65 : eph.length = 65)
    (hpk : K.publicKey.into_protobuf_encoding.length ≤ 30000)
    (hsig : (K.sign (LIBP2P_SIGNING_PREFIX_BYTES ++ eph)).length ≤ 30000) :
    gen_signed_keypair K eph =
      .ok (eph,
        { oid := LIBP2P_OID, critical := true,
          content := signedKeyContents K.publicKey.into_protobuf_encoding
            (K.sign (LIBP2P_SIGNING_PREFIX_BYTES ++ eph)) }) ∧
    (LIBP2P_SIGNING_PREFIX_BYTES ++ eph).length = 86 ∧
    LIBP2P_SIGNING_PREFIX_BYTES.length = 21 ∧
    oidDer LIBP2P_OID = LIBP2P_OID_BYTES ∧
    expectTagAndGetValue 48
        (signedKeyContents K.publicKey.into_protobuf_encoding
          (K.sign (LIBP2P_SIGNING_PREFIX_BYTES ++ eph))) =
      some (writeBitvecBytes K.publicKey.into_protobuf_encoding ++
        writeBitvecBytes (K.sign (LIBP2P_SIGNING_PREFIX_BYTES ++ eph)), []) ∧
    bitStringNoUnusedBits
        (writeBitvecBytes K.publicKey.into_protobuf_encoding ++
          writeBitvecBytes (K.sign (LIBP2P_SIGNING_PREFIX_BYTES ++ eph))) =
      some (K.publicKey.into_protobuf_encoding,
        writeBitvecBytes (K.sign (LIBP2P_SIGNING_PREFIX_BYTES ++ eph))) ∧
    bitStringNoUnusedBits
        (writeBitvecBytes (K.sign (LIBP2P_SIGNING_PREFIX_BYTES ++ eph))) =
      some (K.sign (LIBP2P_SIGNING_PREFIX_BYTES ++ eph), []) := by
  obtain ⟨h1, h2, h3⟩ :=
    signedKeyContents_parse K.publicKey.into_protobuf_encoding
      (K.sign (LIBP2P_SIGNING_PREFIX_BYTES ++ eph)) hpk hsig
  refine ⟨?_, ?_, by decide, by decide, h1, h2, h3⟩
  · simp [gen_signed_keypair, h65, encode_signed_key]
  · simp only [List.length_append, h65]
    decide

/-- C4 witness: the issuance shape at the concrete keypair `KW` and ephemeral
key `ephW`. -/
theorem gen_signed_keypair_shape_wit :
    gen_signed_keypair KW ephW =
      .ok (ephW,
        { oid := LIBP2P_OID, critical := true,
          content := signedKeyContents KW.publicKey.into_protobuf_encoding
            (KW.sign (LIBP2P_SIGNING_PREFIX_BYTES ++ ephW)) }) ∧
    (LIBP2P_SIGNING_PREFIX_BYTES ++ ephW).length = 86 :=
  ⟨(gen_signed_keypair_shape KW ephW (by decide) (by decide) (by decide)).1,
   (gen_signed_keypair_shape KW ephW (by decide) (by decide) (by decide)).2.1⟩

/-- C5: for every `StreamState`, each registration operation leaves its axis
holding exactly the new registrant, emits exactly the resolution of whatever
waiter or finisher the axis previously held (so nothing is silently
discarded), and a subsequent wake on that axis resumes only the latest
registrant. -/
theorem stream_registration_supersedes (s : StreamState) (w : Waker) (f : Finisher) :
    ((s.set_reader w).1.reader = some w ∧
     (s.set_reader w).2 =
       (match s.reader with
        | some w0 => [WakeEvent.wake w0]
        | none => []) ∧
     (s.set_reader w).1.wake_reader.2 = [WakeEvent.wake w]) ∧
    ((s.set_writer w).1.writer = .Blocked w ∧
     (s.set_writer w).2 =
       (match s.writer with
        | .Unblocked => []
        | .Blocked w0 => [WakeEvent.wake w0]
        | .Finishing f0 => [WakeEvent.notify f0]) ∧
     (s.set_writer w).1.wake_writer.2 = [WakeEvent.wake w]) ∧
    ((s.set_finisher f).1.writer = .Finishing f ∧
     (s.set_finisher f).2 =
       (match s.writer with
        | .Unblocked => []
        | .Blocked w0 => [WakeEvent.wake w0]
        | .Finishing f0 => [WakeEvent.notify f0]) ∧
     (s.set_finisher f).1.wake_writer.2 = [WakeEvent.notify f]) := by
  obtain ⟨r, wr⟩ := s
  cases r <;> cases wr <;>
    simp [StreamState.set_reader, StreamState.set_writer, StreamState.set_finisher,
      StreamState.wake_reader, StreamState.wake_writer, WriterStatus.take]

/-- C6: removing a present stream deletes its entry and, through the dropped
`StreamState`'s destructor (`wake_all`), emits exactly the resolution of the
writer axis followed by the wake of any registered reader waker — both axes
are resolved, no registered waiter is left unresolved. -/
theorem remove_resolves_both_axes (t : Streams) (id : Nat) (s : StreamState)
    (h : assocLookup t.map id = some s) :
    Streams.remove t id = .ok (⟨assocErase t.map id⟩, s.dropEvents) ∧
    s.dropEvents = s.writer.take ++
      (match s.reader with
       | some w => [WakeEvent.wake w]
       | none => []) := by
  constructor
  · simp [Streams.remove, h]
  · cases hr : s.reader <;>
      simp [StreamState.dropEvents, StreamState.wake_all, StreamState.wake_writer,
        StreamState.wake_reader, hr]

/-- C6 witness: removing the one stream of `tblW`, which holds both a reader
waker and a finisher. -/
theorem remove_resolves_both_axes_wit :
    Streams.remove tblW 4 = .ok (⟨assocErase tblW.map 4⟩,
      StreamState.dropEvents ⟨some 3, .Finishing 5⟩) ∧
    StreamState.dropEvents ⟨some 3, .Finishing 5⟩ =
      (WriterStatus.Finishing 5).take ++ [WakeEvent.wake 3] :=
  remove_resolves_both_axes tblW 4 ⟨some 3, .Finishing 5⟩ (by decide)

/-- C7: after `set_finisher`, one `wake_writer` notifies the finisher channel
exactly once and resets the writer axis to `Unblocked`; a second `wake_writer`
with no intervening registration emits nothing and leaves the whole state
unchanged. -/
theorem finisher_one_shot (s : StreamState) (f : Finisher) :
    ((s.set_finisher f).1.wake_writer.2 = [WakeEvent.notify f]) ∧
    ((s.set_finisher f).1.wake_writer.1.writer = .Unblocked) ∧
    ((s.set_finisher f).1.wake_writer.1.wake_writer.2 = []) ∧
    ((s.set_finisher f).1.wake_writer.1.wake_writer.1 =
      (s.set_finisher f).1.wake_writer.1) := by
  simp [StreamState.set_finisher, StreamState.wake_writer, WriterStatus.take]

/-- C8: the strict table operations treat namespace violations as fatal
panics, with the source's "Internal state corrupted" message: `add_stream` on
a present id, and `remove` / `set_reader` / `set_writer` / `set_finisher` on
an absent id. -/
theorem strict_table_ops_panic (t : Streams) (id : Nat) (w : Waker) (f : Finisher) :
    ((assocLookup t.map id).isSome = true →
      Streams.add_stream t id = .panicked panicMsgCorrupted) ∧
    (assocLookup t.map id = none →
      Streams.remove t id = .panicked panicMsgCorrupted ∧
      Streams.set_reader t id w = .panicked panicMsgCorrupted ∧
      Streams.set_writer t id w = .panicked panicMsgCorrupted ∧
      Streams.set_finisher t id f = .panicked panicMsgCorrupted) := by
  constructor
  · intro h
    obtain ⟨s, hs⟩ := Option.isSome_iff_exists.mp h
    simp [Streams.add_stream, hs]
  · intro h
    refine ⟨?_, ?_, ?_, ?_⟩ <;>
      simp [Streams.remove, Streams.set_reader, Streams.set_writer,
        Streams.set_finisher, h]

/-- C8 witness: a duplicate `add_stream` on `tblW1` (which holds id 0), and
the strict operations on the empty table `tblW0`. -/
theorem strict_table_ops_panic_wit :
    Streams.add_stream tblW1 0 = .panicked panicMsgCorrupted ∧
    (Streams.remove tblW0 0 = .panicked panicMsgCorrupted ∧
     Streams.set_reader tblW0 0 1 = .panicked panicMsgCorrupted ∧
     Streams.set_writer tblW0 0 1 = .panicked panicMsgCorrupted ∧
     Streams.set_finisher tblW0 0 2 = .panicked panicMsgCorrupted) :=
  ⟨(strict_table_ops_panic tblW1 0 1 2).1 (by decide),
   (strict_table_ops_panic tblW0 0 1 2).2 (by decide)⟩

/-- C9: `wake_reader` and `wake_writer` on an id not present in the table are
total no-ops — no panic, and the table (key set and every stored state) is
returned unchanged with no wake events. -/
theorem wake_unknown_id_noop (t : Streams) (id : Nat)
    (h : assocLookup t.map id = none) :
    Streams.wake_reader t id = (t, []) ∧ Streams.wake_writer t id = (t, []) := by
  constructor <;> simp [Streams.wake_reader, Streams.wake_writer, h]

/-- C9 witness: waking an id absent from `tblW1`. -/
theorem wake_unknown_id_noop_wit :
    Streams.wake_reader tblW1 7 = (tblW1, []) ∧
    Streams.wake_writer tblW1 7 = (tblW1, []) :=
  wake_unknown_id_noop tblW1 7 (by decide)

/-- C10: `add_stream` on a fresh id returns a `StreamId` wrapping exactly that
id and inserts the default `StreamState` (no reader waker, writer
`Unblocked`), so an immediately following `wake_reader` or `wake_writer` on
that id resolves no waiter and leaves the table unchanged. -/
theorem add_stream_fresh_default (t : Streams) (id : Nat)
    (h : assocLookup t.map id = none) :
    Streams.add_stream t id =
      .ok (⟨(id, StreamState.defaultState) :: t.map⟩, ⟨id⟩) ∧
    StreamState.defaultState = ⟨none, WriterStatus.Unblocked⟩ ∧
    Streams.wake_reader ⟨(id, StreamState.defaultState) :: t.map⟩ id =
      (⟨(id, StreamState.defaultState) :: t.map⟩, []) ∧
    Streams.wake_writer ⟨(id, StreamState.defaultState) :: t.map⟩ id =
      (⟨(id, StreamState.defaultState) :: t.map⟩, []) := by
  refine ⟨by simp [Streams.add_stream, h], rfl, ?_, ?_⟩
  · simp [Streams.wake_reader, assocLookup, StreamState.wake_reader,
      StreamState.defaultState, assocReplace]
  · simp [Streams.wake_writer, assocLookup, StreamState.wake_writer,
      StreamState.defaultState, assocReplace, WriterStatus.take]

/-- C10 witness: adding the fresh id 9 to `tblW1`. -/
theorem add_stream_fresh_default_wit :
    Streams.add_stream tblW1 9 =
      .ok (⟨(9, StreamState.defaultState) :: tblW1.map⟩, ⟨9⟩) ∧
    Streams.wake_reader ⟨(9, StreamState.defaultState) :: tblW1.map⟩ 9 =
      (⟨(9, StreamState.defaultState) :: tblW1.map⟩, []) :=
  ⟨(add_stream_fresh_default tblW1 9 (by decide)).1,
   (add_stream_fresh_default tblW1 9 (by decide)).2.2.1⟩

end Libp2pQuic
